import Mathlib

/-!
Verification of the maxon authentication service core
(`vagonaizer/maxon-authentification-service`).

Shallow embedding of the Go source:
* `pkg/utils` validators and normalizers (`IsValidEmail`, `IsValidUsername`,
  `IsValidPassword`, `NormalizeEmail`, `NormalizeUsername`),
* `pkg/auth/password.go` (`PasswordHasher.HashPassword` / `VerifyPassword`),
* the JWT manager (`pkg/auth` JWTManager) with the external HS256 machinery
  modelled symbolically,
* the repository contracts (postgres repositories) as pure operations on an
  explicit store,
* the `AuthService` orchestrator methods (`Register`, `Login`, `RefreshToken`,
  `Logout`, `LogoutAll`, `VerifyToken`, `ChangePassword`).

Go strings are modelled as `List Char`; byte slices as `List Nat`; time as a
`Nat` passed explicitly where the Go code calls `time.Now()`; randomness
(UUIDs, salts, opaque refresh tokens) as explicit arguments.
-/

deriving instance DecidableEq for Except

namespace AuthCore

/-- Go `string`, modelled as a list of characters. -/
abbrev GoStr := List Char

/-! ### Character classes (model of `unicode.IsUpper` etc. on the ASCII range,
as exercised by the service's inputs) -/

/-- Model of `unicode.IsUpper` on ASCII. -/
def isUpperChar (c : Char) : Bool := 65 ≤ c.toNat && c.toNat ≤ 90

/-- Model of `unicode.IsLower` on ASCII. -/
def isLowerChar (c : Char) : Bool := 97 ≤ c.toNat && c.toNat ≤ 122

/-- Model of `unicode.IsNumber` on ASCII. -/
def isDigitChar (c : Char) : Bool := 48 ≤ c.toNat && c.toNat ≤ 57

/-- Model of `unicode.IsPunct(c) || unicode.IsSymbol(c)` on ASCII: the four
printable non-alphanumeric non-space ranges. -/
def isSpecialChar (c : Char) : Bool :=
  (33 ≤ c.toNat && c.toNat ≤ 47) || (58 ≤ c.toNat && c.toNat ≤ 64) ||
  (91 ≤ c.toNat && c.toNat ≤ 96) || (123 ≤ c.toNat && c.toNat ≤ 126)

/-- Model of `unicode.IsSpace` on ASCII (used by `strings.TrimSpace`). -/
def isSpaceChar (c : Char) : Bool :=
  c.toNat = 32 || c.toNat = 9 || c.toNat = 10 || c.toNat = 11 ||
  c.toNat = 12 || c.toNat = 13

/-- ASCII letter (for the `[a-zA-Z]` class of the email regex). -/
def isAlphaChar (c : Char) : Bool := isUpperChar c || isLowerChar c

/-! ### `pkg/utils/validator.go` -/

/-- Character class `[a-zA-Z0-9._%+-]` (local part of the email regex). -/
def isEmailLocalChar (c : Char) : Bool :=
  isAlphaChar c || isDigitChar c || c = '.' || c = '_' || c = '%' || c = '+' || c = '-'

/-- Character class `[a-zA-Z0-9.-]` (domain part of the email regex). -/
def isEmailDomainChar (c : Char) : Bool :=
  isAlphaChar c || isDigitChar c || c = '.' || c = '-'

/-- Character class `[a-zA-Z0-9_-]` of the username regex. -/
def isUsernameChar (c : Char) : Bool :=
  isAlphaChar c || isDigitChar c || c = '_' || c = '-'

/-- The suffix after the last dot of the email regex: `[a-zA-Z]{2,}$`. -/
def matchEmailTld (t : GoStr) : Bool :=
  2 ≤ t.length && t.all isAlphaChar

/-- Matches `[a-zA-Z0-9.-]+[.][a-zA-Z]{2,}$`: some split into a non-empty
domain-char run, a dot, and a trailing-letter run of length at least two. -/
def matchEmailDomain (r : GoStr) : Bool :=
  (List.range (r.length + 1)).any fun i =>
    decide (1 ≤ i) && (r.take i).all isEmailDomainChar &&
      (match r.drop i with
       | '.' :: t => matchEmailTld t
       | _ => false)

/-- `utils.IsValidEmail`: full-string match of the anchored regex
`[a-zA-Z0-9._%+-]+@[a-zA-Z0-9.-]+[.][a-zA-Z]{2,}`, expressed through the
existence of a decomposition at the `@`. -/
def IsValidEmail (s : GoStr) : Bool :=
  (List.range (s.length + 1)).any fun i =>
    decide (1 ≤ i) && (s.take i).all isEmailLocalChar &&
      (match s.drop i with
       | '@' :: r => matchEmailDomain r
       | _ => false)

/-- `utils.IsValidUsername`: anchored `[a-zA-Z0-9_-]{3,50}`. -/
def IsValidUsername (s : GoStr) : Bool :=
  3 ≤ s.length && s.length ≤ 50 && s.all isUsernameChar

/-- `utils.IsValidPassword`: length at least 8 and one character from each of
the upper / lower / digit / punctuation-or-symbol classes.  The Go loop sets
four flags through a first-match `switch`; the four ASCII classes are
pairwise disjoint, so the flag values equal these `any` tests. -/
def IsValidPassword (p : GoStr) : Bool :=
  if p.length < 8 then false
  else p.any isUpperChar && p.any isLowerChar && p.any isDigitChar && p.any isSpecialChar

/-- `strings.TrimSpace`: drop leading and trailing whitespace. -/
def trimSpace (s : GoStr) : GoStr :=
  ((s.dropWhile isSpaceChar).reverse.dropWhile isSpaceChar).reverse

/-- ASCII lower-casing of one character (model of `strings.ToLower`). -/
def toLowerChar (c : Char) : Char :=
  if isUpperChar c then Char.ofNat (c.toNat + 32) else c

/-- `utils.NormalizeEmail`: `strings.ToLower(strings.TrimSpace(email))`. -/
def NormalizeEmail (s : GoStr) : GoStr := (trimSpace s).map toLowerChar

/-- `utils.NormalizeUsername`: `strings.ToLower(strings.TrimSpace(username))`. -/
def NormalizeUsername (s : GoStr) : GoStr := (trimSpace s).map toLowerChar

/-! ### `strings.Split` and decimal printing/parsing -/

/-- `strings.Split(s, sep)` for a one-character separator. -/
def goSplit (sep : Char) : GoStr → List GoStr
  | [] => [[]]
  | c :: cs =>
    if c = sep then [] :: goSplit sep cs
    else
      match goSplit sep cs with
      | [] => [[c]]
      | g :: gs => (c :: g) :: gs

theorem goSplit_ne_nil (sep : Char) (s : GoStr) : goSplit sep s ≠ [] := by
  induction s with
  | nil => simp [goSplit]
  | cons c cs ih =>
    simp only [goSplit]
    split
    · simp
    · cases h : goSplit sep cs <;> simp

theorem goSplit_no_sep (sep : Char) (s : GoStr) (h : sep ∉ s) :
    goSplit sep s = [s] := by
  induction s with
  | nil => rfl
  | cons c cs ih =>
    simp only [List.mem_cons, not_or] at h
    simp only [goSplit]
    rw [if_neg (by exact fun hc => h.1 hc.symm), ih h.2]

theorem goSplit_append_sep (sep : Char) (a b : GoStr) (h : sep ∉ a) :
    goSplit sep (a ++ sep :: b) = a :: goSplit sep b := by
  induction a with
  | nil => simp [goSplit]
  | cons c cs ih =>
    simp only [List.mem_cons, not_or] at h
    simp only [List.cons_append, goSplit]
    rw [if_neg (by exact fun hc => h.1 hc.symm)]
    rw [show cs.append (sep :: b) = cs ++ sep :: b from rfl, ih h.2]

/-- Decimal digit to character. -/
def digitChar (d : Nat) : Char := Char.ofNat (48 + d)

/-- Character to decimal digit value. -/
def charDigitVal (c : Char) : Nat := c.toNat - 48

/-- Little-endian base-10 digits, by fuel-bounded structural recursion (so
that concrete instances reduce inside the kernel); agrees with
`Nat.digits 10` whenever the fuel is at least the argument. -/
def natDigitsRev (fuel : Nat) (n : Nat) : List Nat :=
  match fuel with
  | 0 => []
  | fuel + 1 => if n = 0 then [] else n % 10 :: natDigitsRev fuel (n / 10)

theorem natDigitsRev_eq_digits (fuel n : Nat) (h : n ≤ fuel) :
    natDigitsRev fuel n = Nat.digits 10 n := by
  induction fuel generalizing n with
  | zero =>
    have : n = 0 := Nat.le_zero.mp h
    subst this
    simp [natDigitsRev]
  | succ fuel ih =>
    by_cases hn : n = 0
    · subst hn
      simp [natDigitsRev]
    · rw [natDigitsRev, if_neg hn,
        Nat.digits_eq_cons_digits_div (by norm_num) hn,
        ih (n / 10) ?_]
      have hlt : n / 10 < n := Nat.div_lt_self (Nat.pos_of_ne_zero hn) (by norm_num)
      omega

/-- Decimal rendering of a natural number (model of `fmt.Sprintf` `%d`
for positive arguments). -/
def natChars (n : Nat) : GoStr := (natDigitsRev n n).reverse.map digitChar

theorem natChars_eq (n : Nat) :
    natChars n = (Nat.digits 10 n).reverse.map digitChar := by
  rw [natChars, natDigitsRev_eq_digits n n (le_refl n)]

/-- Parse a non-empty all-digit run as a natural number (model of the `%d`
verb of `fmt.Sscanf` on the strings this service produces). -/
def parseNatField (s : GoStr) : Option Nat :=
  if s ≠ [] && s.all isDigitChar then
    some (Nat.ofDigits 10 (s.map charDigitVal).reverse)
  else none

theorem charDigitVal_digitChar {d : Nat} (h : d < 10) :
    charDigitVal (digitChar d) = d := by
  interval_cases d <;> decide

theorem digitChar_isDigit {d : Nat} (h : d < 10) : isDigitChar (digitChar d) = true := by
  interval_cases d <;> decide

theorem natChars_all_digit (n : Nat) : (natChars n).all isDigitChar = true := by
  rw [natChars_eq]
  simp only [List.all_eq_true, List.mem_map, List.mem_reverse]
  rintro c ⟨d, hd, rfl⟩
  exact digitChar_isDigit (Nat.digits_lt_base (by norm_num) hd)

theorem natChars_ne_nil {n : Nat} (h : 0 < n) : natChars n ≠ [] := by
  rw [natChars_eq]
  simp only [ne_eq, List.map_eq_nil_iff, List.reverse_eq_nil_iff]
  exact Nat.digits_ne_nil_iff_ne_zero.mpr (Nat.pos_iff_ne_zero.mp h)

theorem charsNat_natChars (n : Nat) :
    Nat.ofDigits 10 ((natChars n).map charDigitVal).reverse = n := by
  have hid : ∀ l : List Nat, (∀ d ∈ l, d < 10) →
      l.map (fun d => charDigitVal (digitChar d)) = l := by
    intro l
    induction l with
    | nil => intro _; rfl
    | cons d ds ih =>
      intro hl
      simp only [List.map_cons, List.cons.injEq]
      exact ⟨charDigitVal_digitChar (hl d (by simp)), ih fun x hx => hl x (by simp [hx])⟩
  rw [natChars_eq, List.map_map,
    show (charDigitVal ∘ digitChar) = fun d => charDigitVal (digitChar d) from rfl,
    ← List.map_reverse, List.reverse_reverse,
    hid _ (fun d hd => Nat.digits_lt_base (by norm_num) hd), Nat.ofDigits_digits]

theorem parseNatField_natChars {n : Nat} (h : 0 < n) :
    parseNatField (natChars n) = some n := by
  have hne : natChars n ≠ [] := natChars_ne_nil h
  have hdig := natChars_all_digit n
  rw [parseNatField, if_pos (by simp [hne, hdig]), charsNat_natChars]

theorem not_mem_natChars {c : Char} (hc : isDigitChar c = false) (n : Nat) :
    c ∉ natChars n := by
  intro hm
  have hall := natChars_all_digit n
  rw [List.all_eq_true] at hall
  rw [hall c hm] at hc
  exact Bool.noConfusion hc

/-- Join fields with a one-character separator (inverse of `goSplit`). -/
def joinSep (sep : Char) : List GoStr → GoStr
  | [] => []
  | [f] => f
  | f :: rest => f ++ sep :: joinSep sep rest

theorem goSplit_joinSep (sep : Char) (fs : List GoStr) (hne : fs ≠ [])
    (h : ∀ f ∈ fs, sep ∉ f) : goSplit sep (joinSep sep fs) = fs := by
  induction fs with
  | nil => exact absurd rfl hne
  | cons f rest ih =>
    cases rest with
    | nil => exact goSplit_no_sep sep f (h f (by simp))
    | cons g rest2 =>
      show goSplit sep (f ++ sep :: joinSep sep (g :: rest2)) = _
      rw [goSplit_append_sep sep _ _ (h f (by simp)),
        ih (by simp) (fun x hx => h x (by simp [List.mem_cons] at hx ⊢; tauto))]

/-! ### Byte strings and the external encoders

`[]byte(password)` in Go converts a string to its bytes; we model it as the
character codes. -/

/-- Model of the Go string-to-byte-slice conversion. -/
def strToBytes (s : GoStr) : List Nat := s.map Char.toNat

theorem strToBytes_injective : Function.Injective strToBytes := by
  intro a b h
  have hinj : Function.Injective Char.toNat := by
    intro c d hcd
    have hval : c.val = d.val := UInt32.ext hcd
    exact Char.ext hval
  exact List.map_injective_iff.mpr hinj h

/-- Modelled external library: `encoding/base64` `RawStdEncoding`.  The model
is an injective textual encoding of a byte sequence whose output uses only
decimal digits and the character `.` (in particular it never contains `$`
or `,`, matching the base64 alphabet), with an explicit decoder inverting
it; those are the only properties of the real encoder that the repository's
code relies on. -/
def b64encode (bs : List Nat) : GoStr := joinSep '.' (bs.map natChars)

/-- Decoder for `b64encode` (model of `base64.RawStdEncoding.DecodeString`;
total, because the strings the service feeds it decode successfully). -/
def b64decode (s : GoStr) : List Nat :=
  (goSplit '.' s).map fun f => Nat.ofDigits 10 (f.map charDigitVal).reverse

theorem mem_joinSep {c : Char} {sep : Char} {fs : List GoStr}
    (h : c ∈ joinSep sep fs) : c = sep ∨ ∃ f ∈ fs, c ∈ f := by
  induction fs with
  | nil => simp [joinSep] at h
  | cons f rest ih =>
    cases rest with
    | nil =>
      refine Or.inr ⟨f, by simp, ?_⟩
      simpa [joinSep] using h
    | cons g rest2 =>
      rw [show joinSep sep (f :: g :: rest2) = f ++ sep :: joinSep sep (g :: rest2)
        from rfl] at h
      rw [List.mem_append, List.mem_cons] at h
      rcases h with h | h | h
      · exact Or.inr ⟨f, by simp, h⟩
      · exact Or.inl h
      · rcases ih h with h | ⟨f2, hf2, hc⟩
        · exact Or.inl h
        · exact Or.inr ⟨f2, by simp [hf2], hc⟩

theorem b64encode_chars (bs : List Nat) :
    ∀ c ∈ b64encode bs, isDigitChar c = true ∨ c = '.' := by
  intro c hc
  rcases mem_joinSep hc with h | ⟨f, hf, hcf⟩
  · exact Or.inr h
  · rcases List.mem_map.mp hf with ⟨n, _, rfl⟩
    have hall := natChars_all_digit n
    rw [List.all_eq_true] at hall
    exact Or.inl (hall c hcf)

theorem dot_not_mem_natChars (n : Nat) : '.' ∉ natChars n :=
  not_mem_natChars (by decide) n

theorem b64decode_encode (bs : List Nat) (h : bs ≠ []) :
    b64decode (b64encode bs) = bs := by
  rw [b64encode, b64decode,
    goSplit_joinSep '.' (bs.map natChars) (by simp [h]) ?hf]
  case hf =>
    intro f hf
    rcases List.mem_map.mp hf with ⟨n, _, rfl⟩
    exact dot_not_mem_natChars n
  rw [List.map_map]
  have hid : ∀ l2 : List Nat,
      (l2.map ((fun f => Nat.ofDigits 10 (List.map charDigitVal f).reverse) ∘ natChars))
        = l2 := by
    intro l2
    induction l2 with
    | nil => rfl
    | cons x xs ih =>
      rw [List.map_cons, ih, Function.comp_apply, charsNat_natChars]
  exact hid bs

/-- Injective numeric code of a list of naturals: the base-10 digits of the
entries, each followed by a `10` separator digit, read as one base-11
number.  Used by the symbolic models of the KDF and the MAC. -/
def natCodeDigits : List Nat → List Nat
  | [] => []
  | n :: rest => natDigitsRev n n ++ 10 :: natCodeDigits rest

/-- The code itself. -/
def natCode (l : List Nat) : Nat := Nat.ofDigits 11 (natCodeDigits l)

theorem natCodeDigits_lt (l : List Nat) : ∀ d ∈ natCodeDigits l, d < 11 := by
  induction l with
  | nil => simp [natCodeDigits]
  | cons n rest ih =>
    intro d hd
    rw [natCodeDigits, natDigitsRev_eq_digits n n (le_refl n)] at hd
    rw [List.mem_append, List.mem_cons] at hd
    rcases hd with hd | hd | hd
    · exact Nat.lt_succ_of_lt (Nat.digits_lt_base (by norm_num) hd)
    · omega
    · exact ih d hd

theorem getLast?_append_right {α : Type} (x : List α) {y : List α}
    (h : y ≠ []) : (x ++ y).getLast? = y.getLast? := by
  induction x with
  | nil => rfl
  | cons a xs ih =>
    rw [List.cons_append, List.getLast?_cons, ih]
    cases y with
    | nil => exact absurd rfl h
    | cons b ys => simp [List.getLast?_cons]

theorem natCodeDigits_ne_nil {l : List Nat} (h : l ≠ []) :
    natCodeDigits l ≠ [] := by
  cases l with
  | nil => exact absurd rfl h
  | cons n rest =>
    rw [natCodeDigits]
    simp

theorem natCodeDigits_getLast? {l : List Nat} (h : l ≠ []) :
    (natCodeDigits l).getLast? = some 10 := by
  induction l with
  | nil => exact absurd rfl h
  | cons n rest ih =>
    rw [natCodeDigits, getLast?_append_right _ (by simp)]
    cases hr : rest with
    | nil => simp [natCodeDigits]
    | cons m rest2 =>
      have hx : natCodeDigits (m :: rest2) ≠ [] := natCodeDigits_ne_nil (by simp)
      rw [show (10 :: natCodeDigits (m :: rest2) : List Nat)
          = [10] ++ natCodeDigits (m :: rest2) from rfl,
        getLast?_append_right _ hx, ← hr]
      exact ih (by simp [hr])

theorem digits_natCode {l : List Nat} (h : l ≠ []) :
    Nat.digits 11 (natCode l) = natCodeDigits l := by
  have hne : natCodeDigits l ≠ [] := by
    intro hnil
    have := natCodeDigits_getLast? h
    rw [hnil] at this
    simp at this
  apply Nat.digits_ofDigits 11 (by norm_num) _ (natCodeDigits_lt l)
  intro h2
  have hsome := natCodeDigits_getLast? h
  rw [List.getLast?_eq_getLast _ h2] at hsome
  rw [Option.some.injEq] at hsome
  rw [hsome]
  norm_num

theorem takeWhile_append_stop {p : Nat → Bool} (a : List Nat) (s : Nat)
    (r : List Nat) (ha : ∀ x ∈ a, p x = true) (hs : p s = false) :
    (a ++ s :: r).takeWhile p = a ∧ (a ++ s :: r).dropWhile p = s :: r := by
  induction a with
  | nil =>
    constructor
    · rw [List.nil_append, List.takeWhile_cons, hs]
      simp
    · rw [List.nil_append, List.dropWhile_cons, hs]
      simp
  | cons x xs ih =>
    have hx : p x = true := ha x (by simp)
    have hih := ih fun y hy => ha y (by simp [hy])
    constructor
    · rw [List.cons_append, List.takeWhile_cons, hx, hih.1]
      simp
    · rw [List.cons_append, List.dropWhile_cons, hx, hih.2]
      simp

theorem natCodeDigits_injective : Function.Injective natCodeDigits := by
  intro a
  induction a with
  | nil =>
    intro b h
    cases b with
    | nil => rfl
    | cons m rest =>
      rw [natCodeDigits, natCodeDigits] at h
      exact absurd h.symm (by simp)
  | cons n rest ih =>
    intro b h
    cases b with
    | nil =>
      rw [natCodeDigits, natCodeDigits] at h
      exact absurd h (by simp)
    | cons m rest2 =>
      rw [natCodeDigits, natCodeDigits, natDigitsRev_eq_digits n n (le_refl n),
        natDigitsRev_eq_digits m m (le_refl m)] at h
      have hdn : ∀ x ∈ Nat.digits 10 n, (fun d => decide (d < 10)) x = true := by
        intro x hx
        simpa using Nat.digits_lt_base (by norm_num) hx
      have hdm : ∀ x ∈ Nat.digits 10 m, (fun d => decide (d < 10)) x = true := by
        intro x hx
        simpa using Nat.digits_lt_base (by norm_num) hx
      have hn10 : (fun d => decide (d < 10)) 10 = false := by simp
      have h1 := takeWhile_append_stop (Nat.digits 10 n) 10 (natCodeDigits rest) hdn hn10
      have h2 := takeWhile_append_stop (Nat.digits 10 m) 10 (natCodeDigits rest2) hdm hn10
      have hdig : Nat.digits 10 n = Nat.digits 10 m := by
        rw [← h1.1, ← h2.1, h]
      have hrest : natCodeDigits rest = natCodeDigits rest2 := by
        rw [h] at h1
        have h12 := h1.2
        rw [h2.2] at h12
        exact ((List.cons.injEq _ _ _ _).mp h12 |>.2).symm
      have hn : n = m := by
        have := congrArg (Nat.ofDigits 10) hdig
        rwa [Nat.ofDigits_digits, Nat.ofDigits_digits] at this
      rw [hn, ih hrest]

theorem natCode_injective : Function.Injective natCode := by
  intro a b h
  rcases Decidable.em (a = []) with rfl | ha
  · rcases Decidable.em (b = []) with rfl | hb
    · rfl
    · exfalso
      have hd := digits_natCode hb
      rw [← h] at hd
      have : Nat.digits 11 (natCode ([] : List Nat)) = [] := by
        simp [natCode, natCodeDigits, Nat.ofDigits]
      rw [this] at hd
      have hlast := natCodeDigits_getLast? hb
      rw [← hd] at hlast
      simp at hlast
  · rcases Decidable.em (b = []) with rfl | hb
    · exfalso
      have hd := digits_natCode ha
      rw [h] at hd
      have : Nat.digits 11 (natCode ([] : List Nat)) = [] := by
        simp [natCode, natCodeDigits, Nat.ofDigits]
      rw [this] at hd
      have hlast := natCodeDigits_getLast? ha
      rw [← hd] at hlast
      simp at hlast
    · have hd1 := digits_natCode ha
      have hd2 := digits_natCode hb
      rw [h] at hd1
      exact natCodeDigits_injective (hd1.symm.trans hd2)

/-- Modelled external library: `golang.org/x/crypto/argon2` `IDKey`, the
memory-hard KDF.  Modelled as a symbolic ideal KDF: the output has exactly
`keyLen` entries and the entry at index `i` codes the full input
`(password, salt, time, memory, threads)` together with `i`, so for a
positive `keyLen` distinct passwords yield distinct outputs (the ideal
collision-freeness that the specification's property assumes). -/
def argon2IDKey (password salt : List Nat) (time memory threads keyLen : Nat) :
    List Nat :=
  (List.range keyLen).map fun i =>
    natCode [i, natCode password, natCode salt, time, memory, threads]

/-- Version constant of the argon2 library (`argon2.Version = 19`). -/
def argon2Version : Nat := 19

theorem argon2IDKey_length (password salt : List Nat) (t m th kl : Nat) :
    (argon2IDKey password salt t m th kl).length = kl := by
  unfold argon2IDKey
  rw [List.length_map, List.length_range]

theorem argon2IDKey_inj_password {p q salt : List Nat} {t m th kl : Nat}
    (hkl : 0 < kl)
    (h : argon2IDKey p salt t m th kl = argon2IDKey q salt t m th kl) : p = q := by
  have h0 : (argon2IDKey p salt t m th kl)[0]? = (argon2IDKey q salt t m th kl)[0]? := by
    rw [h]
  simp only [argon2IDKey, List.getElem?_map, List.getElem?_range hkl,
    Option.map_some', Option.some.injEq] at h0
  have h1 := natCode_injective h0
  rw [List.cons.injEq, List.cons.injEq] at h1
  exact natCode_injective h1.2.1

/-! ### `pkg/auth/password.go`: the password hasher -/

/-- `auth.PasswordHasher`: fixed KDF parameters. -/
structure PasswordHasher where
  memory : Nat
  iterations : Nat
  parallelism : Nat
  saltLength : Nat
  keyLength : Nat
  deriving DecidableEq

/-- `auth.NewPasswordHasher`. -/
def NewPasswordHasher : PasswordHasher :=
  { memory := 64 * 1024, iterations := 3, parallelism := 2
    saltLength := 16, keyLength := 32 }

/-- The `m=..,t=..,p=..` parameter field of the encoded hash. -/
def paramsChars (memory iterations parallelism : Nat) : GoStr :=
  joinSep ','
    ['m' :: '=' :: natChars memory, 't' :: '=' :: natChars iterations,
     'p' :: '=' :: natChars parallelism]

/-- `PasswordHasher.HashPassword`.  The random salt drawn by
`generateRandomBytes(p.saltLength)` is passed explicitly; the only error
path of the Go function is randomness failure, so the model is total.
The result is the Go format string
`$argon2id$v=VERSION$m=MEMORY,t=ITERATIONS,p=PARALLELISM$B64SALT$B64HASH`,
built here as a `$`-join of its six fields (the first of which is empty,
because the format starts with the separator). -/
def HashPassword (p : PasswordHasher) (password : GoStr) (salt : List Nat) : GoStr :=
  let hash := argon2IDKey (strToBytes password) salt p.iterations p.memory
    p.parallelism p.keyLength
  joinSep '$'
    [[], "argon2id".data, 'v' :: '=' :: natChars argon2Version,
     paramsChars p.memory p.iterations p.parallelism,
     b64encode salt, b64encode hash]

/-- Error results of `VerifyPassword` (the Go function returns
`(bool, error)`). -/
inductive HashFormatError
  | invalidHashFormat
  | scanFailure
  | incompatibleVersion
  deriving DecidableEq, Repr

/-- Parse of `fmt.Sscanf(vals[2], "v=%d", &version)` on the strings this
service produces: literal `v=` followed by the decimal number. -/
def parseVersionField (s : GoStr) : Option Nat :=
  match s with
  | c1 :: c2 :: rest => if c1 = 'v' ∧ c2 = '=' then parseNatField rest else none
  | _ => none

/-- Parse of `fmt.Sscanf(vals[3], "m=%d,t=%d,p=%d", ...)` on the strings this
service produces. -/
def parseParamsField (s : GoStr) : Option (Nat × Nat × Nat) :=
  match goSplit ',' s with
  | [a, b, c] =>
    match a, b, c with
    | a1 :: a2 :: ma, b1 :: b2 :: tb, c1 :: c2 :: pc =>
      if a1 = 'm' ∧ a2 = '=' ∧ b1 = 't' ∧ b2 = '=' ∧ c1 = 'p' ∧ c2 = '=' then
        match parseNatField ma, parseNatField tb, parseNatField pc with
        | some m, some t, some p => some (m, t, p)
        | _, _, _ => none
      else none
    | _, _, _ => none
  | _ => none

/-- Model of `subtle.ConstantTimeCompare(hash, otherHash) == 1`: true exactly
when the two byte slices are equal (equal lengths and contents). -/
def constantTimeCompare (x y : List Nat) : Bool := x == y

/-- `PasswordHasher.VerifyPassword`: split the encoded hash on `$`, require
six fields, decode version and parameters from the stored string, base64
decode salt and hash, recompute the KDF with the decoded parameters and
`keyLen = len(hash)`, and compare in constant time.  Fields 0 and 1 are not
inspected by the Go code. -/
def VerifyPassword (password encodedHash : GoStr) : Except HashFormatError Bool :=
  match goSplit '$' encodedHash with
  | [_, _, v2, v3, v4, v5] =>
    match parseVersionField v2 with
    | none => .error .scanFailure
    | some version =>
      if version ≠ argon2Version then .error .incompatibleVersion
      else
        match parseParamsField v3 with
        | none => .error .scanFailure
        | some (memory, iterations, parallelism) =>
          let salt := b64decode v4
          let hash := b64decode v5
          let otherHash := argon2IDKey (strToBytes password) salt iterations memory
            parallelism hash.length
          .ok (constantTimeCompare hash otherHash)
  | _ => .error .invalidHashFormat

theorem dollar_not_mem_b64 (bs : List Nat) : '$' ∉ b64encode bs := by
  intro hm
  rcases b64encode_chars bs '$' hm with h | h <;> exact absurd h (by decide)

theorem paramsChars_chars (m t p : Nat) :
    ∀ c ∈ paramsChars m t p, isDigitChar c = true ∨
      c = ',' ∨ c = 'm' ∨ c = 't' ∨ c = 'p' ∨ c = '=' := by
  intro c hc
  have hd : ∀ n, c ∈ natChars n → isDigitChar c = true := by
    intro n hn
    have hall := natChars_all_digit n
    rw [List.all_eq_true] at hall
    exact hall c hn
  simp only [paramsChars, joinSep, List.mem_append, List.mem_cons] at hc
  tauto

theorem dollar_not_mem_params (m t p : Nat) : '$' ∉ paramsChars m t p := by
  intro hm
  rcases paramsChars_chars m t p '$' hm with h | h | h | h | h | h <;>
    exact absurd h (by decide)

theorem comma_not_mem_natChars (n : Nat) : ',' ∉ natChars n :=
  not_mem_natChars (by decide) n

theorem goSplit_params (m t p : Nat) :
    goSplit ',' (paramsChars m t p) =
      ['m' :: '=' :: natChars m, 't' :: '=' :: natChars t,
       'p' :: '=' :: natChars p] := by
  apply goSplit_joinSep
  · simp
  · intro f hf
    simp only [List.mem_cons, List.not_mem_nil, or_false] at hf
    rcases hf with rfl | rfl | rfl <;>
    · intro hm
      simp only [List.mem_cons] at hm
      rcases hm with h | h | h
      · exact absurd h (by decide)
      · exact absurd h (by decide)
      · exact comma_not_mem_natChars _ h

theorem parseParamsField_paramsChars {m t p : Nat} (hm : 0 < m) (ht : 0 < t)
    (hp : 0 < p) : parseParamsField (paramsChars m t p) = some (m, t, p) := by
  rw [parseParamsField, goSplit_params]
  simp only [parseNatField_natChars hm, parseNatField_natChars ht,
    parseNatField_natChars hp, and_self, if_pos]

theorem goSplit_HashPassword (p : PasswordHasher) (password : GoStr)
    (salt : List Nat) :
    goSplit '$' (HashPassword p password salt) =
      [[], "argon2id".data, 'v' :: '=' :: natChars argon2Version,
       paramsChars p.memory p.iterations p.parallelism,
       b64encode salt,
       b64encode (argon2IDKey (strToBytes password) salt p.iterations p.memory
         p.parallelism p.keyLength)] := by
  rw [HashPassword]
  apply goSplit_joinSep
  · simp
  · intro f hf
    simp only [List.mem_cons, List.not_mem_nil, or_false] at hf
    rcases hf with rfl | rfl | rfl | rfl | rfl | rfl
    · simp
    · decide
    · intro hm
      simp only [List.mem_cons] at hm
      rcases hm with h | h | h
      · exact absurd h (by decide)
      · exact absurd h (by decide)
      · exact not_mem_natChars (by decide) _ h
    · exact dollar_not_mem_params _ _ _
    · exact dollar_not_mem_b64 _
    · exact dollar_not_mem_b64 _

/-- Evaluation of `VerifyPassword` on a hash produced by `HashPassword` with
the production parameters: the verifier decodes the stored salt and
parameters from the encoded string and recomputes the KDF on the supplied
password. -/
theorem VerifyPassword_eval (attempt password : GoStr) (salt : List Nat)
    (hsalt : salt ≠ []) :
    VerifyPassword attempt (HashPassword NewPasswordHasher password salt) =
      .ok (constantTimeCompare
        (argon2IDKey (strToBytes password) salt 3 65536 2 32)
        (argon2IDKey (strToBytes attempt) salt 3 65536 2 32)) := by
  have hk : (argon2IDKey (strToBytes password) salt 3 65536 2 32).length = 32 :=
    argon2IDKey_length _ _ _ _ _ _
  have hkn : argon2IDKey (strToBytes password) salt 3 65536 2 32 ≠ [] := by
    intro h
    rw [h] at hk
    simp at hk
  have hsplit := goSplit_HashPassword NewPasswordHasher password salt
  have hmem : NewPasswordHasher.memory = 65536 := by norm_num [NewPasswordHasher]
  have hit : NewPasswordHasher.iterations = 3 := rfl
  have hpar : NewPasswordHasher.parallelism = 2 := rfl
  have hkl : NewPasswordHasher.keyLength = 32 := rfl
  rw [hmem, hit, hpar, hkl] at hsplit
  rw [VerifyPassword, hsplit]
  simp only [parseVersionField, parseNatField_natChars (show 0 < argon2Version by decide),
    parseParamsField_paramsChars (show 0 < 65536 by decide) (show 0 < 3 by decide)
      (show 0 < 2 by decide),
    b64decode_encode salt hsalt, b64decode_encode _ hkn, hk, and_self, if_true,
    ne_eq, not_true_eq_false, if_false]

/-! ### `pkg/auth/jwt.go`: the token authority

The external `golang-jwt/jwt/v5` machinery (JSON serialization, HMAC-SHA256)
is modelled symbolically: a signed token is its claims structure together
with a MAC value computed from the signing secret and a numeric code of the
claims; validation recomputes and compares the MAC and then checks the
registered time claims against the supplied clock. -/

/-- `auth.JWTManager`: immutable signing configuration. -/
structure JWTManager where
  accessSecret : GoStr
  refreshSecret : GoStr
  issuer : GoStr
  audience : GoStr
  deriving DecidableEq

/-- Numeric code of a Go string. -/
def strCode (s : GoStr) : Nat := natCode (strToBytes s)

/-- `auth.AccessTokenClaims`: user id, email, username, roles plus the
registered claims. -/
structure AccessTokenClaims where
  userID : Nat
  email : GoStr
  username : GoStr
  roles : List GoStr
  issuer : GoStr
  audience : List GoStr
  subject : Nat
  expiresAt : Nat
  notBefore : Nat
  issuedAt : Nat
  jti : Nat
  deriving DecidableEq

/-- Numeric code of an access-claims structure (payload fed to the MAC). -/
def accessClaimsCode (c : AccessTokenClaims) : Nat :=
  natCode ([c.userID, strCode c.email, strCode c.username,
    natCode (c.roles.map strCode), strCode c.issuer,
    natCode (c.audience.map strCode), c.subject, c.expiresAt, c.notBefore,
    c.issuedAt, c.jti])

/-- Modelled external library: HMAC-SHA256 signing of `golang-jwt/jwt/v5`,
modelled as a symbolic MAC of the secret and the claims code. -/
def hmacSign (secret : GoStr) (payload : Nat) : Nat :=
  Nat.pair (strCode secret) payload

/-- A signed access token: claims plus MAC (the Go code passes it around as
an opaque string). -/
structure SignedAccessToken where
  claims : AccessTokenClaims
  sig : Nat
  deriving DecidableEq

/-- `JWTManager.GenerateAccessToken`: build the claims from the arguments
and the clock (`expiresAt = now + expiry`, `notBefore = issuedAt = now`),
then sign with the access secret.  The random token id drawn by
`uuid.New()` is passed explicitly. -/
def GenerateAccessToken (j : JWTManager) (userID : Nat) (email username : GoStr)
    (roles : List GoStr) (expiry : Nat) (now : Nat) (jti : Nat) :
    SignedAccessToken :=
  let claims : AccessTokenClaims :=
    { userID := userID, email := email, username := username, roles := roles
      issuer := j.issuer, audience := [j.audience], subject := userID
      expiresAt := now + expiry, notBefore := now, issuedAt := now, jti := jti }
  { claims := claims, sig := hmacSign j.accessSecret (accessClaimsCode claims) }

/-- Token validation failures of the jwt library (`expired` and
`invalid signature / malformed` are surfaced separately). -/
inductive JwtError
  | invalidSignature
  | expired
  | notYetValid
  deriving DecidableEq, Repr

/-- `JWTManager.ValidateAccessToken`: recompute the MAC with the access
secret (a token signed with any other secret or altered claims is
rejected), then validate the registered time claims: valid while
`notBefore ≤ now < expiresAt`. -/
def ValidateAccessToken (j : JWTManager) (tok : SignedAccessToken) (now : Nat) :
    Except JwtError AccessTokenClaims :=
  if tok.sig ≠ hmacSign j.accessSecret (accessClaimsCode tok.claims) then
    .error .invalidSignature
  else if now < tok.claims.notBefore then .error .notYetValid
  else if ¬ now < tok.claims.expiresAt then .error .expired
  else .ok tok.claims

/-- `JWTManager.ExtractTokenFromHeader`: require at least seven characters
with the first seven equal to `Bearer` followed by a space, and return the
rest of the header. -/
def ExtractTokenFromHeader (authHeader : GoStr) : Except HashFormatError GoStr :=
  if authHeader.length < 7 ∨ authHeader.take 7 ≠ "Bearer ".data then
    .error .invalidHashFormat
  else .ok (authHeader.drop 7)

/-! ### Domain entities and the persistent store

The entity record declarations live in files not present under `src/`; the
fields below are exactly those read and written by the service code in
`src/` and listed in the specification's persisted-state layout
(`users(...)`, `sessions(...)`, `roles(...)`, `user_roles(...)`).
Identifiers (`uuid.UUID`) are modelled as `Nat`; timestamps as `Nat`. -/

/-- `entities.User`. -/
structure User where
  id : Nat
  email : GoStr
  username : GoStr
  passwordHash : GoStr
  firstName : Option GoStr
  lastName : Option GoStr
  isActive : Bool
  isVerified : Bool
  lastLoginAt : Option Nat
  deletedAt : Option Nat
  deriving DecidableEq

/-- `entities.Session`. -/
structure Session where
  id : Nat
  userID : Nat
  refreshToken : GoStr
  userAgent : GoStr
  ipAddress : GoStr
  isActive : Bool
  expiresAt : Nat
  deriving DecidableEq

/-- `entities.Role`. -/
structure Role where
  id : Nat
  name : GoStr
  deriving DecidableEq

/-- The persistent store behind the postgres repositories: user rows,
session rows, role rows and the user-role association. -/
structure Store where
  users : List User
  sessions : List Session
  roles : List Role
  userRoles : List (Nat × Nat)
  deriving DecidableEq

/-- The typed failures of `pkg/errors` used by the auth service. -/
inductive AppError
  | validation (msg : GoStr)
  | weakPassword
  | emailExists
  | usernameExists
  | invalidCredentials
  | userInactive
  | tokenInvalid
  | tokenExpired
  | userNotFound
  | internal (msg : GoStr)
  deriving DecidableEq

/-! Repository operations (`internal/infrastructure/database/postgres/...`),
as pure queries and updates on the store.  Each models the SQL of the Go
repository named in its comment; lookups that exclude soft-deleted rows
carry the `deleted_at IS NULL` filter of the query. -/

/-- `userRepository.ExistsByEmail`: exact match on the raw argument,
excluding soft-deleted rows. -/
def existsByEmail (st : Store) (email : GoStr) : Bool :=
  st.users.any fun u => u.email == email && u.deletedAt == none

/-- `userRepository.ExistsByUsername`. -/
def existsByUsername (st : Store) (username : GoStr) : Bool :=
  st.users.any fun u => u.username == username && u.deletedAt == none

/-- `userRepository.GetByEmail` (`WHERE email = $1 AND deleted_at IS NULL`). -/
def getUserByEmail (st : Store) (email : GoStr) : Option User :=
  st.users.find? fun u => u.email == email && u.deletedAt == none

/-- `userRepository.GetByID` (`WHERE id = $1 AND deleted_at IS NULL`). -/
def getUserByID (st : Store) (id : Nat) : Option User :=
  st.users.find? fun u => u.id == id && u.deletedAt == none

/-- `userRepository.Create`: the INSERT surfaces a duplicate-key violation
of the `users.email` / `users.username` UNIQUE constraints as `EmailExists`
/ `UsernameExists` (the postgres error names the violated column; the Go
code tests for `email` before `username`).  The column constraints apply to
every stored row, soft-deleted ones included. -/
def createUser (st : Store) (u : User) : Except AppError Store :=
  if st.users.any (fun x => x.email == u.email) then .error .emailExists
  else if st.users.any (fun x => x.username == u.username) then
    .error .usernameExists
  else .ok { st with users := st.users ++ [u] }

/-- `userRepository.Update`: replace the row with the matching id. -/
def updateUser (st : Store) (u : User) : Store :=
  { st with users := st.users.map fun x => if x.id == u.id then u else x }

/-- `SessionRepository.GetByRefreshToken` (`WHERE refresh_token = $1`). -/
def getSessionByRefreshToken (st : Store) (tok : GoStr) : Option Session :=
  st.sessions.find? fun s => s.refreshToken == tok

/-- `SessionRepository.Create`. -/
def createSession (st : Store) (s : Session) : Store :=
  { st with sessions := st.sessions ++ [s] }

/-- `SessionRepository.Delete` (`DELETE FROM sessions WHERE id = $1`). -/
def deleteSession (st : Store) (id : Nat) : Store :=
  { st with sessions := st.sessions.filter fun s => ¬ s.id == id }

/-- `SessionRepository.DeleteByUserID`
(`DELETE FROM sessions WHERE user_id = $1`). -/
def deleteSessionsByUserID (st : Store) (userID : Nat) : Store :=
  { st with sessions := st.sessions.filter fun s => ¬ s.userID == userID }

/-- `roleRepository.GetByName` (`WHERE name = $1`). -/
def getRoleByName (st : Store) (name : GoStr) : Option Role :=
  st.roles.find? fun r => r.name == name

/-- `roleRepository.AssignRoleToUser` (`INSERT ... ON CONFLICT DO NOTHING`). -/
def assignRoleToUser (st : Store) (userID roleID : Nat) : Store :=
  if st.userRoles.any fun ur => ur == (userID, roleID) then st
  else { st with userRoles := st.userRoles ++ [(userID, roleID)] }

/-- `roleRepository.GetUserRoles` (join of `roles` and `user_roles` on the
user id). -/
def getUserRoles (st : Store) (userID : Nat) : List Role :=
  st.roles.filter fun r => st.userRoles.any fun ur => ur == (userID, r.id)

/-! ### `pkg/errors` and the DTOs -/

/-- `request.RegisterRequest`. -/
structure RegisterRequest where
  email : GoStr
  username : GoStr
  password : GoStr
  firstName : GoStr
  lastName : GoStr
  deriving DecidableEq

/-- `request.LoginRequest`. -/
structure LoginRequest where
  email : GoStr
  password : GoStr
  deriving DecidableEq

/-- `request.ChangePasswordRequest`.  The Go field `UserID` is a string fed
to `uuid.Parse`; ids are `Nat` here, so the request carries the parsed id
(the parse-failure `Validation` branch is outside this model). -/
structure ChangePasswordRequest where
  userID : Nat
  oldPassword : GoStr
  newPassword : GoStr
  deriving DecidableEq

/-- `response.UserResponse` (public projection; no password hash field). -/
structure UserResponse where
  id : Nat
  email : GoStr
  username : GoStr
  firstName : Option GoStr
  lastName : Option GoStr
  isActive : Bool
  isVerified : Bool
  lastLoginAt : Option Nat
  deriving DecidableEq

/-- `response.AuthResponse`. -/
structure AuthResponse where
  accessToken : SignedAccessToken
  refreshToken : GoStr
  tokenType : GoStr
  expiresIn : Nat
  user : UserResponse
  deriving DecidableEq

/-- `response.TokenResponse`: the refresh flow's response type.  It has no
refresh-token field, mirroring the Go DTO. -/
structure TokenResponse where
  accessToken : SignedAccessToken
  tokenType : GoStr
  expiresIn : Nat
  deriving DecidableEq

/-- `response.TokenClaimsResponse`. -/
structure TokenClaimsResponse where
  userID : Nat
  email : GoStr
  username : GoStr
  roles : List GoStr
  expiresAt : Nat
  issuedAt : Nat
  deriving DecidableEq

/-- The public user projection built by `Register` and `Login`. -/
def userResponseOf (u : User) : UserResponse :=
  { id := u.id, email := u.email, username := u.username
    firstName := u.firstName, lastName := u.lastName
    isActive := u.isActive, isVerified := u.isVerified
    lastLoginAt := u.lastLoginAt }

/-! ### `services.AuthService` (the opaque-refresh-token orchestrator)

Each operation takes the store, the request, the clock reading used for
`time.Now()`, and the fresh random values the Go code draws
(`uuid.New()`, `generateRandomBytes`, `utils.GenerateSecureToken()`), and
returns the typed result together with the updated store.  Event
publication and logging are best-effort no-ops on the state. -/

/-- `services.AuthService`: injected configuration. -/
structure AuthService where
  jwt : JWTManager
  hasher : PasswordHasher
  accessExpiry : Nat
  refreshExpiry : Nat
  deriving DecidableEq

/-- The fresh random values drawn during `Register` / `Login`. -/
structure Fresh where
  userID : Nat
  sessionID : Nat
  jti : Nat
  salt : List Nat
  refreshTok : GoStr
  deriving DecidableEq

/-- `AuthService.Register`. -/
def Register (svc : AuthService) (st : Store) (req : RegisterRequest)
    (ip ua : GoStr) (now : Nat) (fr : Fresh) :
    Except AppError AuthResponse × Store :=
  if ¬ IsValidEmail req.email then
    (.error (.validation "invalid email format".data), st)
  else if ¬ IsValidUsername req.username then
    (.error (.validation "invalid username format".data), st)
  else if ¬ IsValidPassword req.password then
    (.error .weakPassword, st)
  else if existsByEmail st req.email then (.error .emailExists, st)
  else if existsByUsername st req.username then (.error .usernameExists, st)
  else
    let passwordHash := HashPassword svc.hasher req.password fr.salt
    let user : User :=
      { id := fr.userID, email := NormalizeEmail req.email
        username := NormalizeUsername req.username, passwordHash := passwordHash
        firstName := some req.firstName, lastName := some req.lastName
        isActive := true, isVerified := false, lastLoginAt := none
        deletedAt := none }
    match createUser st user with
    | .error e => (.error e, st)
    | .ok st1 =>
      let st2 :=
        match getRoleByName st1 "user".data with
        | none => st1
        | some r => assignRoleToUser st1 user.id r.id
      let roleNames := (getUserRoles st2 user.id).map Role.name
      let accessToken := GenerateAccessToken svc.jwt user.id user.email
        user.username roleNames svc.accessExpiry now fr.jti
      let session : Session :=
        { id := fr.sessionID, userID := user.id, refreshToken := fr.refreshTok
          userAgent := ua, ipAddress := ip, isActive := true
          expiresAt := now + svc.refreshExpiry }
      let st3 := createSession st2 session
      let resp : AuthResponse :=
        { accessToken := accessToken, refreshToken := fr.refreshTok
          tokenType := "Bearer".data, expiresIn := svc.accessExpiry
          user := userResponseOf user }
      (.ok resp, st3)

/-- `AuthService.Login`.  The Go method checks the account's active flag
before verifying the password (step 2 before step 3). -/
def Login (svc : AuthService) (st : Store) (req : LoginRequest)
    (ip ua : GoStr) (now : Nat) (fr : Fresh) :
    Except AppError AuthResponse × Store :=
  match getUserByEmail st (NormalizeEmail req.email) with
  | none => (.error .invalidCredentials, st)
  | some user =>
    if ¬ user.isActive then (.error .userInactive, st)
    else
      match VerifyPassword req.password user.passwordHash with
      | .error _ => (.error (.internal "authentication failed".data), st)
      | .ok false => (.error .invalidCredentials, st)
      | .ok true =>
        let user1 := { user with lastLoginAt := some now }
        let st1 := updateUser st user1
        let roleNames := (getUserRoles st1 user.id).map Role.name
        let accessToken := GenerateAccessToken svc.jwt user.id user.email
          user.username roleNames svc.accessExpiry now fr.jti
        let session : Session :=
          { id := fr.sessionID, userID := user.id
            refreshToken := fr.refreshTok, userAgent := ua, ipAddress := ip
            isActive := true, expiresAt := now + svc.refreshExpiry }
        let st2 := createSession st1 session
        let resp : AuthResponse :=
          { accessToken := accessToken, refreshToken := fr.refreshTok
            tokenType := "Bearer".data, expiresIn := svc.accessExpiry
            user := userResponseOf user1 }
        (.ok resp, st2)

/-- `AuthService.RefreshToken`: look up the session by the opaque token,
reject inactive or expired sessions (`time.Now().After(expiresAt)`, i.e.
strictly `expiresAt < now`), load the user, and issue a new access token
only; the store is not written. -/
def RefreshTokenOp (svc : AuthService) (st : Store) (tok : GoStr) (now : Nat)
    (jti : Nat) : Except AppError TokenResponse × Store :=
  match getSessionByRefreshToken st tok with
  | none => (.error .tokenInvalid, st)
  | some session =>
    if ¬ session.isActive ∨ session.expiresAt < now then
      (.error .tokenExpired, st)
    else
      match getUserByID st session.userID with
      | none => (.error .userNotFound, st)
      | some user =>
        if ¬ user.isActive then (.error .userInactive, st)
        else
          let roleNames := (getUserRoles st user.id).map Role.name
          let accessToken := GenerateAccessToken svc.jwt user.id user.email
            user.username roleNames svc.accessExpiry now jti
          let resp : TokenResponse :=
            { accessToken := accessToken, tokenType := "Bearer".data
              expiresIn := svc.accessExpiry }
          (.ok resp, st)

/-- `AuthService.Logout`: a failed session lookup returns success without
touching the store; otherwise the session row is deleted. -/
def Logout (st : Store) (tok : GoStr) : Except AppError Unit × Store :=
  match getSessionByRefreshToken st tok with
  | none => (.ok (), st)
  | some session => (.ok (), deleteSession st session.id)

/-- `AuthService.LogoutAll` (ids are `Nat` here, so the `uuid.Parse`
failure branch is outside this model). -/
def LogoutAll (st : Store) (userID : Nat) : Except AppError Unit × Store :=
  (.ok (), deleteSessionsByUserID st userID)

/-- `AuthService.VerifyToken`: a pass-through to
`jwtManager.ValidateAccessToken`; any validation failure collapses to
`TokenInvalid`.  The store is neither read nor written. -/
def VerifyToken (svc : AuthService) (st : Store) (tok : SignedAccessToken)
    (now : Nat) : Except AppError TokenClaimsResponse × Store :=
  match ValidateAccessToken svc.jwt tok now with
  | .error _ => (.error .tokenInvalid, st)
  | .ok claims =>
    let resp : TokenClaimsResponse :=
      { userID := claims.userID, email := claims.email
        username := claims.username, roles := claims.roles
        expiresAt := claims.expiresAt, issuedAt := claims.issuedAt }
    (.ok resp, st)

/-- `AuthService.ChangePassword`: load the user, verify the old password,
check the new password's strength, persist the new hash, and delete all of
the user's sessions (a deletion failure is only logged, and deletion here
never fails). -/
def ChangePassword (svc : AuthService) (st : Store)
    (req : ChangePasswordRequest) (salt : List Nat) :
    Except AppError Unit × Store :=
  match getUserByID st req.userID with
  | none => (.error .userNotFound, st)
  | some user =>
    match VerifyPassword req.oldPassword user.passwordHash with
    | .error _ => (.error (.internal "password verification failed".data), st)
    | .ok false => (.error .invalidCredentials, st)
    | .ok true =>
      if ¬ IsValidPassword req.newPassword then (.error .weakPassword, st)
      else
        let user1 :=
          { user with passwordHash := HashPassword svc.hasher req.newPassword salt }
        let st1 := updateUser st user1
        let st2 := deleteSessionsByUserID st1 user.id
        (.ok (), st2)

/-! ### Theorems for the specification claims -/

/-- Success test for `Except` results. -/
def exceptIsOk {e a : Type} (r : Except e a) : Bool :=
  match r with
  | .ok _ => true
  | .error _ => false

theorem C7_aux (h t : GoStr) :
    ExtractTokenFromHeader h = .ok t ↔ h = "Bearer ".data ++ t := by
  rw [ExtractTokenFromHeader]
  constructor
  · intro hok
    by_cases hc : h.length < 7 ∨ h.take 7 ≠ "Bearer ".data
    · rw [if_pos hc] at hok
      exact absurd hok (by simp)
    · rw [if_neg hc] at hok
      push_neg at hc
      have hdrop : h.drop 7 = t := by
        have := hok
        rw [Except.ok.injEq] at this
        exact this
      rw [← hc.2, ← hdrop]
      exact (List.take_append_drop 7 h).symm
  · intro hb
    subst hb
    have hlen : ("Bearer ".data ++ t).length = 7 + t.length := by
      rw [List.length_append]
      rfl
    have htake : ("Bearer ".data ++ t).take 7 = "Bearer ".data := by
      rw [List.take_append_of_le_length (by rw [show ("Bearer ".data).length = 7 from rfl])]
      simp
    have hdrop : ("Bearer ".data ++ t).drop 7 = t := by
      rw [List.drop_append_of_le_length (by rw [show ("Bearer ".data).length = 7 from rfl])]
      simp
    rw [if_neg (by rw [hlen, htake]; simp), hdrop]

/-- C7: `ExtractTokenFromHeader` returns a token exactly when the header is
`Bearer` followed by a space and that token; every other header value is a
format error. -/
theorem C7_extract_bearer_token (h : GoStr) :
    (∀ t, ExtractTokenFromHeader h = .ok t ↔ h = "Bearer ".data ++ t) ∧
    ((∀ t, h ≠ "Bearer ".data ++ t) →
      ExtractTokenFromHeader h = .error .invalidHashFormat) := by
  have hiff : ∀ t, ExtractTokenFromHeader h = .ok t ↔ h = "Bearer ".data ++ t := by
    intro t
    exact C7_aux h t
  refine ⟨hiff, ?_⟩
  intro hnot
  rw [ExtractTokenFromHeader]
  by_cases hc : h.length < 7 ∨ h.take 7 ≠ "Bearer ".data
  · rw [if_pos hc]
  · exfalso
    push_neg at hc
    exact hnot (h.drop 7) (by rw [← hc.2, List.take_append_drop])

set_option maxRecDepth 100000 in
/-- C7 witness: concrete well-formed and malformed headers. -/
theorem C7_witness :
    (ExtractTokenFromHeader "Bearer abc".data = .ok "abc".data ↔
      "Bearer abc".data = "Bearer ".data ++ "abc".data) ∧
    ExtractTokenFromHeader "Basic abc".data = .error .invalidHashFormat :=
  ⟨(C7_extract_bearer_token "Bearer abc".data).1 "abc".data,
   (C7_extract_bearer_token "Basic abc".data).2 (by
     intro t ht
     have hlen := congrArg List.length ht
     simp only [List.length_append] at hlen
     have h7 : ("Basic abc".data).take 7 = ("Bearer ".data ++ t).take 7 := by rw [ht]
     rw [List.take_append_of_le_length (by decide)] at h7
     revert h7
     decide)⟩

/-- C5: `VerifyToken` reads only the token-authority configuration, the
token and the clock, never the session or user store: its result is
unchanged by `Logout`, `LogoutAll` or `ChangePassword` state transitions,
so revoking sessions does not invalidate already-issued access tokens. -/
theorem C5_verify_independent_of_sessions (svc : AuthService) (st : Store)
    (tok : SignedAccessToken) (now : Nat) (rt : GoStr) (uid : Nat)
    (req : ChangePasswordRequest) (salt : List Nat) :
    (VerifyToken svc (Logout st rt).2 tok now).1 = (VerifyToken svc st tok now).1 ∧
    (VerifyToken svc (LogoutAll st uid).2 tok now).1 = (VerifyToken svc st tok now).1 ∧
    (VerifyToken svc (ChangePassword svc st req salt).2 tok now).1
      = (VerifyToken svc st tok now).1 := by
  have hgen : ∀ st2 : Store,
      (VerifyToken svc st2 tok now).1 = (VerifyToken svc st tok now).1 := by
    intro st2
    rw [VerifyToken, VerifyToken]
    cases ValidateAccessToken svc.jwt tok now <;> rfl
  exact ⟨hgen _, hgen _, hgen _⟩

/-- C10: when no session matches the refresh token, `Logout` succeeds as a
no-op and deletes nothing; and `Logout` from any state (in particular the
state after a first `Logout` consumed the session) succeeds, so two
consecutive calls with the same token both succeed. -/
theorem C10_logout_idempotent (st st2 : Store) (tok : GoStr)
    (h : getSessionByRefreshToken st tok = none) :
    Logout st tok = (.ok (), st) ∧
    (Logout st2 tok).1 = .ok () ∧
    (Logout (Logout st2 tok).2 tok).1 = .ok () := by
  have hok : ∀ st3 : Store, (Logout st3 tok).1 = .ok () := by
    intro st3
    rw [Logout]
    cases getSessionByRefreshToken st3 tok <;> rfl
  refine ⟨?_, hok st2, hok _⟩
  rw [Logout, h]

/-- C8: a successful `RefreshToken` leaves the store (in particular the
session row) completely unchanged, and issues only a new access token: the
`TokenResponse` it returns has no refresh-token field, and the same refresh
token can immediately be used again with the same result. -/
theorem C8_refresh_frame (svc : AuthService) (st : Store) (tok : GoStr)
    (now jti : Nat) (resp : TokenResponse)
    (h : (RefreshTokenOp svc st tok now jti).1 = .ok resp) :
    RefreshTokenOp svc st tok now jti = (.ok resp, st) ∧
    RefreshTokenOp svc (RefreshTokenOp svc st tok now jti).2 tok now jti
      = (.ok resp, st) := by
  have hframe : ∀ (svc2 : AuthService) (st2 : Store) (tok2 : GoStr) (n2 j2 : Nat),
      (RefreshTokenOp svc2 st2 tok2 n2 j2).2 = st2 := by
    intro svc2 st2 tok2 n2 j2
    rw [RefreshTokenOp]
    repeat' split
    all_goals rfl
  have h1 : RefreshTokenOp svc st tok now jti = (.ok resp, st) := by
    have := hframe svc st tok now jti
    rw [Prod.ext_iff]
    exact ⟨h, this⟩
  refine ⟨h1, ?_⟩
  rw [h1]
  exact h1

/-! ### Concrete fixtures used by witnesses and counterexamples -/

/-- Witness JWT configuration. -/
def jwtW : JWTManager :=
  { accessSecret := "k1".data, refreshSecret := "k2".data
    issuer := "iss".data, audience := "aud".data }

/-- Witness service configuration. -/
def svcW : AuthService :=
  { jwt := jwtW, hasher := NewPasswordHasher, accessExpiry := 900
    refreshExpiry := 3600 }

/-- An encoded hash of the one-character password `a` with salt `[0]`. -/
def hashA : GoStr := HashPassword NewPasswordHasher "a".data [0]

/-- Witness active user. -/
def uW : User :=
  { id := 1, email := "a@x.com".data, username := "alice".data
    passwordHash := "h".data, firstName := none, lastName := none
    isActive := true, isVerified := false, lastLoginAt := none
    deletedAt := none }

/-- Witness session of `uW`, expiring at time 100. -/
def sW : Session :=
  { id := 11, userID := 1, refreshToken := "rt1".data, userAgent := "ua".data
    ipAddress := "ip".data, isActive := true, expiresAt := 100 }

/-- Witness store. -/
def stW : Store := { users := [uW], sessions := [sW], roles := [], userRoles := [] }

/-- Witness fresh values. -/
def frW : Fresh :=
  { userID := 2, sessionID := 12, jti := 3, salt := [0], refreshTok := "rt2".data }

/-- The access token minted by the witness refresh call. -/
def respW : TokenResponse :=
  { accessToken := GenerateAccessToken jwtW 1 "a@x.com".data "alice".data [] 900 50 7
    tokenType := "Bearer".data, expiresIn := 900 }

/-- An inactive user (for the login order-of-checks claims). -/
def uInactiveW : User :=
  { id := 4, email := "b@x.com".data, username := "bob".data
    passwordHash := "h".data, firstName := none, lastName := none
    isActive := false, isVerified := false, lastLoginAt := none
    deletedAt := none }

/-- Store holding only the inactive user. -/
def stInactiveW : Store :=
  { users := [uInactiveW], sessions := [], roles := [], userRoles := [] }

/-- Login request for the inactive account with a wrong password. -/
def reqInactiveW : LoginRequest := { email := "b@x.com".data, password := "wrong".data }

/-- An active user whose stored hash is the hash of password `a`. -/
def uActiveW : User :=
  { id := 5, email := "c@x.com".data, username := "carol".data
    passwordHash := hashA, firstName := none, lastName := none
    isActive := true, isVerified := false, lastLoginAt := none
    deletedAt := none }

/-- Store holding only the active user. -/
def stActiveW : Store :=
  { users := [uActiveW], sessions := [], roles := [], userRoles := [] }

/-- Login request for the active account with a wrong password. -/
def reqActiveW : LoginRequest := { email := "c@x.com".data, password := "b".data }

/-! ### C1 -/

/-- C1 counterexample: for an existing but inactive account and a wrong
password, `Login` returns `UserInactive`, not `InvalidCredentials` — the
active-status check runs before password verification. -/
theorem C1_counterexample :
    Login svcW stInactiveW reqInactiveW "ip".data "ua".data 5 frW
      = (.error .userInactive, stInactiveW) ∧
    AppError.userInactive ≠ AppError.invalidCredentials := by
  exact ⟨by decide, by decide⟩

/-- C1 (amended): `Login` checks the account's active flag before the
password: an existing inactive account yields `UserInactive` regardless of
the supplied password, and `InvalidCredentials` for a wrong password is
returned only when the account is active. -/
theorem C1_login_checks_active_before_password (svc : AuthService) (st : Store)
    (req : LoginRequest) (ip ua : GoStr) (now : Nat) (fr : Fresh) (user : User)
    (hfind : getUserByEmail st (NormalizeEmail req.email) = some user) :
    (user.isActive = false →
      Login svc st req ip ua now fr = (.error .userInactive, st)) ∧
    (user.isActive = true →
      VerifyPassword req.password user.passwordHash = .ok false →
      Login svc st req ip ua now fr = (.error .invalidCredentials, st)) := by
  constructor
  · intro hinact
    rw [Login, hfind]
    simp only [hinact]
    rw [if_pos (by simp)]
  · intro hact hverify
    rw [Login, hfind]
    simp only [hact, hverify]
    rw [if_neg (by simp)]

set_option maxRecDepth 1000000 in
/-- C1 witness: the amended theorem applied to the two concrete stores. -/
theorem C1_witness :
    Login svcW stInactiveW reqInactiveW "ip".data "ua".data 5 frW
      = (.error .userInactive, stInactiveW) ∧
    Login svcW stActiveW reqActiveW "ip".data "ua".data 5 frW
      = (.error .invalidCredentials, stActiveW) :=
  ⟨(C1_login_checks_active_before_password svcW stInactiveW reqInactiveW
      "ip".data "ua".data 5 frW uInactiveW (by decide)).1 (by decide),
   (C1_login_checks_active_before_password svcW stActiveW reqActiveW
      "ip".data "ua".data 5 frW uActiveW (by decide)).2 (by decide) (by decide)⟩

/-! ### C3 -/

/-- C3 counterexample: with the session's `expires_at` exactly equal to the
current time, `RefreshToken` succeeds and does not return `TokenExpired`
(`time.Now().After` is a strict comparison). -/
theorem C3_counterexample :
    (getSessionByRefreshToken stW "rt1".data).map Session.expiresAt = some 100 ∧
    exceptIsOk (RefreshTokenOp svcW stW "rt1".data 100 7).1 = true ∧
    (RefreshTokenOp svcW stW "rt1".data 100 7).1 ≠ .error .tokenExpired := by
  exact ⟨by decide, by decide, by decide⟩

/-- C3 (amended): the expiry comparison is strict: for a session found by
its refresh token, `RefreshToken` returns `TokenExpired` exactly when the
session is inactive or the current time is strictly after `expires_at`; at
exact equality the session passes the expiry check. -/
theorem C3_expiry_boundary_strict (svc : AuthService) (st : Store)
    (tok : GoStr) (now jti : Nat) (session : Session)
    (h : getSessionByRefreshToken st tok = some session) :
    (RefreshTokenOp svc st tok now jti).1 = .error .tokenExpired ↔
      (session.isActive = false ∨ session.expiresAt < now) := by
  simp only [RefreshTokenOp, h]
  by_cases hc : (¬ session.isActive = true ∨ session.expiresAt < now)
  · rw [if_pos hc]
    simp only [Bool.not_eq_true] at hc
    simpa using hc
  · rw [if_neg hc]
    simp only [Bool.not_eq_true] at hc
    push_neg at hc
    constructor
    · intro habs
      exfalso
      split at habs
      · simp at habs
      · split at habs
        · simp at habs
        · simp at habs
    · intro habs
      exfalso
      rcases habs with habs | habs
      · exact hc.1 habs
      · exact absurd habs (Nat.not_lt.mpr hc.2)

/-- C3 witness: the amended boundary equivalence at the concrete store. -/
theorem C3_witness :
    ((RefreshTokenOp svcW stW "rt1".data 100 7).1 = .error .tokenExpired ↔
      (sW.isActive = false ∨ sW.expiresAt < 100)) :=
  C3_expiry_boundary_strict svcW stW "rt1".data 100 7 sW (by decide)

/-! ### C9 -/

/-- Register request whose email fails format validation and whose password
is weak. -/
def reqBadEmailW : RegisterRequest :=
  { email := "bad".data, username := "alice".data, password := "weak".data
    firstName := [], lastName := [] }

/-- C9 counterexample: a request with a weak password and an invalid email
is rejected with `Validation`, not `WeakPassword` — the email-format check
runs first. -/
theorem C9_counterexample :
    IsValidPassword "weak".data = false ∧
    Register svcW stW reqBadEmailW "ip".data "ua".data 5 frW
      = (.error (.validation "invalid email format".data), stW) ∧
    AppError.validation "invalid email format".data ≠ AppError.weakPassword := by
  exact ⟨by decide, by decide, by decide⟩

/-- C9 (amended): for every Register request that passes the email- and
username-format checks and whose password is weak, `Register` returns
`WeakPassword` and leaves the store untouched (no user row, role
assignment, or session is created). -/
theorem C9_weak_password_rejected (svc : AuthService) (st : Store)
    (req : RegisterRequest) (ip ua : GoStr) (now : Nat) (fr : Fresh)
    (hweak : IsValidPassword req.password = false)
    (hemail : IsValidEmail req.email = true)
    (husername : IsValidUsername req.username = true) :
    Register svc st req ip ua now fr = (.error .weakPassword, st) := by
  rw [Register]
  simp only [hemail, hweak, husername]
  simp

/-- Register request with a valid email and username but a weak password. -/
def reqWeakW : RegisterRequest :=
  { email := "d@x.com".data, username := "dave".data, password := "weak".data
    firstName := [], lastName := [] }

/-- C9 witness: the amended claim at a concrete weak-password request. -/
theorem C9_witness :
    Register svcW stW reqWeakW "ip".data "ua".data 5 frW
      = (.error .weakPassword, stW) :=
  C9_weak_password_rejected svcW stW reqWeakW "ip".data "ua".data 5 frW
    (by decide) (by decide) (by decide)

/-! ### Witnesses for C8 and C10 -/

set_option maxRecDepth 1000000 in
/-- C8 witness: the frame theorem applied to the concrete store, with the
concretely computed access-token response. -/
theorem C8_witness :
    RefreshTokenOp svcW stW "rt1".data 50 7 = (.ok respW, stW) ∧
    RefreshTokenOp svcW (RefreshTokenOp svcW stW "rt1".data 50 7).2 "rt1".data 50 7
      = (.ok respW, stW) :=
  C8_refresh_frame svcW stW "rt1".data 50 7 respW (by decide)

set_option maxRecDepth 1000000 in
/-- C10 witness: logging out an unknown refresh token is a successful no-op,
and a second logout with the same token also succeeds. -/
theorem C10_witness :
    Logout stW "gone".data = (.ok (), stW) ∧
    (Logout stW "gone".data).1 = .ok () ∧
    (Logout (Logout stW "gone".data).2 "gone".data).1 = .ok () :=
  C10_logout_idempotent stW stW "gone".data (by decide)

/-! ### C6 -/

/-- C6: for every password, verifying it against its own encoded hash
succeeds (the verifier decodes salt and parameters from the encoded string
and recomputes the same KDF output), and verifying any other password
against that hash returns false. -/
theorem C6_hash_verify_roundtrip (p q : GoStr) (salt : List Nat)
    (hsalt : salt ≠ []) (hpq : q ≠ p) :
    VerifyPassword p (HashPassword NewPasswordHasher p salt) = .ok true ∧
    VerifyPassword q (HashPassword NewPasswordHasher p salt) = .ok false := by
  have h1 := VerifyPassword_eval p p salt hsalt
  have h2 := VerifyPassword_eval q p salt hsalt
  constructor
  · rw [h1]
    simp [constantTimeCompare]
  · rw [h2]
    have hne : argon2IDKey (strToBytes p) salt 3 65536 2 32
        ≠ argon2IDKey (strToBytes q) salt 3 65536 2 32 := by
      intro he
      exact hpq (strToBytes_injective (argon2IDKey_inj_password (by norm_num) he)).symm
    simp only [constantTimeCompare]
    rw [beq_eq_false_iff_ne.mpr hne]

set_option maxRecDepth 1000000 in
/-- C6 witness: the round trip at the one-character passwords `a` and `b`
with salt `[0]`. -/
theorem C6_witness :
    ([0] ≠ ([] : List Nat)) ∧ ("b".data ≠ "a".data) ∧
    (VerifyPassword "a".data (HashPassword NewPasswordHasher "a".data [0]) = .ok true ∧
     VerifyPassword "b".data (HashPassword NewPasswordHasher "a".data [0]) = .ok false) :=
  ⟨by decide, by decide,
    C6_hash_verify_roundtrip "a".data "b".data [0] (by decide) (by decide)⟩

/-! ### C4 -/

/-- Store with one user whose stored (normalized) email is `a@x.com`. -/
def stDupW : Store := { users := [uW], sessions := [], roles := [], userRoles := [] }

/-- Register request whose email differs from the stored one only in letter
case. -/
def reqDupW : RegisterRequest :=
  { email := "A@x.com".data, username := "bob".data, password := "Aa1!aaaa".data
    firstName := [], lastName := [] }

set_option maxRecDepth 1000000 in
/-- C4: the duplicate check runs on the raw request email while the user to
be created carries the normalized email: a request differing from an
existing user's stored email only in letter case passes `ExistsByEmail`
(the pre-check reports no collision), and the collision is caught only
later, by the `users.email` UNIQUE constraint inside `Create` — the run
returns `EmailExists` from the INSERT, not from the duplicate check. -/
theorem C4_raw_duplicate_check_normalized_store :
    existsByEmail stDupW reqDupW.email = false ∧
    NormalizeEmail reqDupW.email = uW.email ∧
    Register svcW stDupW reqDupW "ip".data "ua".data 5 frW
      = (.error .emailExists, stDupW) := by
  refine ⟨by decide, by decide, by decide⟩

/-! ### C2 -/

theorem getUserByID_id {st : Store} {i : Nat} {user : User}
    (hu : getUserByID st i = some user) : user.id = i := by
  have hp := List.find?_some hu
  rw [Bool.and_eq_true, beq_iff_eq, beq_iff_eq] at hp
  exact hp.1

theorem ChangePassword_ok_state (svc : AuthService) (st : Store)
    (req : ChangePasswordRequest) (salt : List Nat) (user : User)
    (hu : getUserByID st req.userID = some user)
    (hok : (ChangePassword svc st req salt).1 = .ok ()) :
    (ChangePassword svc st req salt).2
      = deleteSessionsByUserID
          (updateUser st
            { user with passwordHash := HashPassword svc.hasher req.newPassword salt })
          user.id := by
  simp only [ChangePassword, hu] at hok ⊢
  cases hv : VerifyPassword req.oldPassword user.passwordHash with
  | error e =>
    rw [hv] at hok
    simp at hok
  | ok b =>
    rw [hv] at hok
    cases b with
    | false => simp at hok
    | true =>
      by_cases hvalid : IsValidPassword req.newPassword = true
      · simp [hvalid]
      · simp [hvalid] at hok

/-- C2: after a successful `ChangePassword`, every session of that user has
been deleted, so a `RefreshToken` call with any refresh token that (in the
pre-change store) belonged only to sessions of that user fails with
`TokenInvalid` instead of minting a new access token. -/
theorem C2_change_password_invalidates_sessions (svc : AuthService)
    (st : Store) (req : ChangePasswordRequest) (salt : List Nat)
    (now jti : Nat) (s : Session)
    (hok : (ChangePassword svc st req salt).1 = .ok ())
    (hs : s ∈ st.sessions) (hsuid : s.userID = req.userID)
    (huniq : ∀ s2 ∈ st.sessions, s2.refreshToken = s.refreshToken →
      s2.userID = req.userID) :
    RefreshTokenOp svc (ChangePassword svc st req salt).2 s.refreshToken now jti
      = (.error .tokenInvalid, (ChangePassword svc st req salt).2) := by
  cases hu : getUserByID st req.userID with
  | none =>
    simp only [ChangePassword, hu] at hok
    simp at hok
  | some user =>
    have huid : user.id = req.userID := getUserByID_id hu
    have hstate := ChangePassword_ok_state svc st req salt user hu hok
    have hnone : getSessionByRefreshToken (ChangePassword svc st req salt).2
        s.refreshToken = none := by
      rw [hstate]
      apply List.find?_eq_none.mpr
      intro x hx
      have hx2 := List.mem_filter.mp hx
      have hxs : x ∈ st.sessions := hx2.1
      have hxuid : x.userID ≠ user.id := by simpa using hx2.2
      intro hbeq
      rw [beq_iff_eq] at hbeq
      exact hxuid ((huniq x hxs hbeq).trans huid.symm)
    rw [RefreshTokenOp, hnone]

/-- A live session of the active user `uActiveW`. -/
def sCPW : Session :=
  { id := 21, userID := 5, refreshToken := "rtc".data, userAgent := "ua".data
    ipAddress := "ip".data, isActive := true, expiresAt := 1000 }

/-- Store for the change-password scenario. -/
def stCPW : Store :=
  { users := [uActiveW], sessions := [sCPW], roles := [], userRoles := [] }

/-- A valid change-password request for `uActiveW` (old password `a`). -/
def reqCPW : ChangePasswordRequest :=
  { userID := 5, oldPassword := "a".data, newPassword := "Aa1!aaaa".data }

set_option maxRecDepth 1000000 in
/-- C2 witness: after the concrete password change, refreshing with the
pre-change session's token fails with `TokenInvalid`. -/
theorem C2_witness :
    RefreshTokenOp svcW (ChangePassword svcW stCPW reqCPW [0]).2
        sCPW.refreshToken 200 9
      = (.error .tokenInvalid, (ChangePassword svcW stCPW reqCPW [0]).2) :=
  C2_change_password_invalidates_sessions svcW stCPW reqCPW [0] 200 9 sCPW
    (by decide) (by decide) (by decide) (by decide)

end AuthCore
